import Mathlib

/-
  Shallow embedding of PDFnPPTX2docxV2.py (PPTX/PDF to DOCX converter).

  The output document is modelled as the list of blocks appended to it
  (python-docx `Document` is append-only during conversion).  Filenames of
  extracted images are modelled structurally by `PicName`, mirroring the
  f-strings `image_{slide_num}_{image_count}.{ext}` (PPTX pipeline) and
  `page_{i+1}_img_{j+1}.png` (PDF pipeline).  Machine-level details that the
  program delegates to libraries (blob bytes, PNG encoding) are not modelled;
  every attribute the script reads is.
-/

namespace ToDocx

/-- Model of `font.color` as seen by `extract_text_runs`:
    `absent` = `font.color` falsy; `noRgbAttr` = no `rgb` attribute;
    `raisesOnAccess` = reading `rgb` or indexing it raises; `rgbNone` =
    `rgb` is falsy (None); `rgbVal r g b` = a concrete RGB triple
    (python-docx `RGBColor` rejects components outside 0..255). -/
inductive ColorInfo where
  | absent
  | noRgbAttr
  | raisesOnAccess
  | rgbNone
  | rgbVal (r g b : Nat)
deriving DecidableEq, Repr

/-- A source run as exposed by python-pptx: `run.text` plus `run.font`
    attributes.  `size` is `font.size` in points (`none` = unset). -/
structure RunData where
  text : String
  bold : Option Bool
  italic : Option Bool
  underline : Option Bool
  size : Option ℚ
  fontName : Option String
  colorInfo : ColorInfo
deriving DecidableEq, Repr

/-- A source paragraph: indentation level and runs.  `para.text` is derived
    from the runs, as in python-pptx. -/
structure Para where
  level : Nat
  runs : List RunData
deriving DecidableEq, Repr

/-- python-pptx `paragraph.text`: concatenation of the run texts. -/
def Para.text (p : Para) : String :=
  String.join (p.runs.map RunData.text)

/-- A picture shape's `shape.image`: native extension and, when
    `PIL.Image.open` on the saved file succeeds, the measured pixel width
    (`none` models the except-path of the `try` in `process_shape`). -/
structure ImgData where
  ext : String
  pixelWidth : Option Nat
deriving DecidableEq, Repr

/-- Structural model of an extracted image's filename:
    `image_{slide}_{cnt}.{ext}` for PPTX, `page_{page}_img_{idx}.png` for
    PDF. -/
inductive PicName where
  | pptx (slide cnt : Nat) (ext : String)
  | pdf (page idx : Nat)
deriving DecidableEq, Repr

/-- A run record: both the dict built by `extract_text_runs` and the run
    written into the output paragraph by `add_text_to_docx`. -/
structure RunRec where
  text : String
  bold : Option Bool
  italic : Option Bool
  underline : Option Bool
  size : Option ℚ
  fontName : Option String
  color : Option (Nat × Nat × Nat)
deriving DecidableEq, Repr

/-- One dict of the list returned by `extract_text_runs`. -/
structure ParaData where
  is_bullet : Bool
  runs : List RunRec
deriving DecidableEq, Repr

/-- A block appended to the output python-docx document. -/
inductive Block where
  | heading (text : String) (level : Nat)
  | para (style : Option String) (runs : List RunRec)
  | picture (fname : PicName) (width : ℚ)
  | table (nRows nCols : Nat) (cells : List (List String)) (style : String)
  | pageBreak
deriving DecidableEq, Repr

/-- A PPTX shape, with exactly the attributes the script reads.
    `visible = none` models a shape without a `visible` attribute
    (`hasattr(shape, "visible")` false); `hasShapesAttr` models
    `hasattr(shape, "shapes")`; `image = none` models
    `hasattr(shape, "image")` false.  Table cell texts are the strings the
    script copies (`cell.text_frame.text`). -/
inductive Shape where
  | mk (visible : Option Bool) (shapeType : Nat) (hasShapesAttr : Bool)
      (children : List Shape) (hasTextFrame : Bool) (textFrame : List Para)
      (image : Option ImgData) (hasTable : Bool)
      (tableRows : List (List String)) (tableCols : Nat) (name : String)

def Shape.visible : Shape → Option Bool
  | .mk v _ _ _ _ _ _ _ _ _ _ => v

def Shape.shapeType : Shape → Nat
  | .mk _ st _ _ _ _ _ _ _ _ _ => st

def Shape.hasShapesAttr : Shape → Bool
  | .mk _ _ hs _ _ _ _ _ _ _ _ => hs

def Shape.children : Shape → List Shape
  | .mk _ _ _ ch _ _ _ _ _ _ _ => ch

def Shape.hasTextFrame : Shape → Bool
  | .mk _ _ _ _ htf _ _ _ _ _ _ => htf

def Shape.textFrame : Shape → List Para
  | .mk _ _ _ _ _ tf _ _ _ _ _ => tf

def Shape.image : Shape → Option ImgData
  | .mk _ _ _ _ _ _ img _ _ _ _ => img

def Shape.hasTable : Shape → Bool
  | .mk _ _ _ _ _ _ _ ht _ _ _ => ht

def Shape.name : Shape → String
  | .mk _ _ _ _ _ _ _ _ _ _ nm => nm

/-- Does `needle` occur as a contiguous sublist of the character list? -/
def hasSubList (needle : List Char) : List Char → Bool
  | [] => needle.isEmpty
  | c :: t => needle.isPrefixOf (c :: t) || hasSubList needle t

/-- Python `"needle" in haystack` substring test. -/
def strContains (hay needle : String) : Bool :=
  hasSubList needle.data hay.data

/-- Python `str.strip()`: remove leading and trailing whitespace. -/
def pyStrip (s : String) : String :=
  String.mk (((s.data.dropWhile Char.isWhitespace).reverse.dropWhile
    Char.isWhitespace).reverse)

/-- Python `str.startswith(pre)`. -/
def pyStartsWith (s pre : String) : Bool :=
  pre.data.isPrefixOf s.data

/-- Helper for `pySplitNl`: split a character list at every newline,
    keeping empty pieces, as Python `split("\n")` does. -/
def splitNlChars : List Char → List (List Char)
  | [] => [[]]
  | c :: t =>
    match splitNlChars t with
    | [] => [[]]
    | h :: r => if c = '\n' then [] :: h :: r else (c :: h) :: r

/-- Python `text.split("\n")`. -/
def pySplitNl (s : String) : List String :=
  (splitNlChars s.data).map String.mk

/-- `hasattr(shape, "visible") and not shape.visible`. -/
def pySkipInvisible : Option Bool → Bool
  | some b => !b
  | none => false

/-- The `color` computed for one run inside `extract_text_runs`:
    `None` unless `font.color` is truthy, has an `rgb` attribute, reading
    and indexing it does not raise, `rgb` is truthy, and all three
    components pass `RGBColor`'s 0..255 validation (a `ValueError` is
    swallowed by the bare `except`). -/
def extractRunColor : ColorInfo → Option (Nat × Nat × Nat)
  | .absent => none
  | .noRgbAttr => none
  | .raisesOnAccess => none
  | .rgbNone => none
  | .rgbVal r g b =>
      if r ≤ 255 ∧ g ≤ 255 ∧ b ≤ 255 then some (r, g, b) else none

/-- The per-run dict built by `extract_text_runs`: note
    `font.size.pt if font.size else None`, where a zero size is falsy. -/
def extractRun (r : RunData) : RunRec :=
  { text := r.text
    bold := r.bold
    italic := r.italic
    underline := r.underline
    size := match r.size with
      | some s => if s = 0 then none else some s
      | none => none
    fontName := r.fontName
    color := extractRunColor r.colorInfo }

/-- The per-paragraph dict: `is_bullet` is
    `para.level > 0 or para.text.strip().startswith("•")`. -/
def extractParaData (p : Para) : ParaData :=
  { is_bullet := decide (p.level > 0) || pyStartsWith (pyStrip p.text) ("•")
    runs := p.runs.map extractRun }

/-- `extract_text_runs(shape)`. -/
def extractTextRuns (s : Shape) : List ParaData :=
  if s.hasTextFrame then s.textFrame.map extractParaData else []

/-- The run written by `add_text_to_docx`: size and font name are set only
    when truthy (`if run["size"]:` / `if run["name"]:`); an `RGBColor` is a
    non-empty tuple, hence always truthy when present. -/
def docRunOf (r : RunRec) : RunRec :=
  { text := r.text
    bold := r.bold
    italic := r.italic
    underline := r.underline
    size := match r.size with
      | some s => if s = 0 then none else some s
      | none => none
    fontName := match r.fontName with
      | some v => if v = "" then none else some v
      | none => none
    color := r.color }

/-- `add_text_to_docx(doc, text_content)`: one paragraph per dict, style
    `List Bullet` exactly for bullets. -/
def addTextToDocx (content : List ParaData) : List Block :=
  content.map fun p =>
    Block.para (if p.is_bullet then some ("List Bullet") else none)
      (p.runs.map docRunOf)

/-- A run of the paragraph created by `doc.add_paragraph(text)`: all
    formatting attributes unset. -/
def plainRun (t : String) : RunRec :=
  { text := t, bold := none, italic := none, underline := none,
    size := none, fontName := none, color := none }

/-- Display width chosen in the picture branch:
    `min(5, img.size[0] / 96)`, or `3` when `Image.open`/measuring raises. -/
def picWidth (im : ImgData) : ℚ :=
  match im.pixelWidth with
  | some w => min 5 ((w : ℚ) / 96)
  | none => 3

mutual

/-- `process_shape(doc, shape, slide_num, image_count, image_dir)`, returning
    the blocks appended to `doc` and the new image counter. -/
def processShape : Shape → Nat → Nat → List Block × Nat
  | Shape.mk vis st hs ch htf tf img ht tRows tCols nm, slideNum, cnt =>
    if pySkipInvisible vis then ([], cnt)
    else if st = 6 ∧ hs = true then
      processShapes ch slideNum cnt
    else if htf = true then
      (addTextToDocx (extractTextRuns (Shape.mk vis st hs ch htf tf img ht tRows tCols nm)), cnt)
    else if h : st = 13 ∧ img.isSome = true then
      ([Block.picture (PicName.pptx slideNum cnt (img.get h.2).ext)
          (picWidth (img.get h.2))], cnt + 1)
    else if ht = true then
      ([Block.table tRows.length tCols tRows ("Table Grid")], cnt)
    else if st = 3 ∧ strContains nm ("Chart") = true then
      ([Block.para none [plainRun ("[Chart Placeholder: Cannot render chart image]")]], cnt)
    else if strContains nm ("SmartArt") = true then
      (Block.para none [plainRun ("[SmartArt Placeholder]")] ::
        (if htf = true then
          addTextToDocx (extractTextRuns (Shape.mk vis st hs ch htf tf img ht tRows tCols nm))
        else []), cnt)
    else ([], cnt)

/-- The loop `for subshape in shape.shapes` (also the slide-level loop
    `for shape in slide.shapes`): threads the image counter left to right. -/
def processShapes : List Shape → Nat → Nat → List Block × Nat
  | [], _, cnt => ([], cnt)
  | s :: rest, slideNum, cnt =>
    let p := processShape s slideNum cnt
    let q := processShapes rest slideNum p.2
    (p.1 ++ q.1, q.2)

end

/-- The slide loop of `pptx_to_docx`: heading, shapes, page break per
    slide, counter threaded across slides; `i` is the 0-based slide index. -/
def pptxLoop : List (List Shape) → Nat → Nat → List Block × Nat
  | [], _, cnt => ([], cnt)
  | shapes :: rest, i, cnt =>
    let p := processShapes shapes (i + 1) cnt
    let q := pptxLoop rest (i + 1) p.2
    (Block.heading ("Slide " ++ toString (i + 1)) 1 :: (p.1 ++ Block.pageBreak :: q.1), q.2)

/-- `pptx_to_docx`: the block sequence of the produced document, for a
    presentation given as its slides' shape lists. -/
def pptxToDocx (slides : List (List Shape)) : List Block :=
  (pptxLoop slides 0 0).1

/-- The per-slide segments as the spec describes them: for each slide, a
    heading, then the slide's shape contributions in traversal order, then
    one page break. -/
def pptxSegments : List (List Shape) → Nat → Nat → List (List Block)
  | [], _, _ => []
  | shapes :: rest, i, cnt =>
    let p := processShapes shapes (i + 1) cnt
    (Block.heading ("Slide " ++ toString (i + 1)) 1 :: p.1 ++ [Block.pageBreak]) ::
      pptxSegments rest (i + 1) p.2

/-- A PyMuPDF pixmap as the PDF loop sees it: `n` is the component count
    (colour components plus alpha, `pix.n`), `alpha` whether an alpha
    channel is present (`pix.alpha`). -/
structure PdfImage where
  n : Nat
  alpha : Bool
deriving DecidableEq, Repr

/-- A PDF page: raw extracted text (`page.get_text()`) and the embedded
    raster images listed by `page.get_images(full=True)`. -/
structure PdfPage where
  text : String
  images : List PdfImage
deriving DecidableEq, Repr

/-- The save step for one embedded PDF image: `pix.save` when `pix.n < 5`,
    otherwise `fitz.Pixmap(fitz.csRGB, pix)` then save.  Returns the pixmap
    written to disk and whether the RGB-conversion branch ran; conversion to
    csRGB keeps the alpha channel, giving `3 + alpha` components. -/
def savePdfImage (img : PdfImage) : PdfImage × Bool :=
  if img.n < 5 then (img, false)
  else ({ n := 3 + (if img.alpha then 1 else 0), alpha := img.alpha }, true)

/-- The picture blocks added for a page's images: one per image, named
    `page_{i+1}_img_{j+1}.png`, embedded at a fixed 4-inch width. -/
def pdfPageImageBlocks (i : Nat) (imgs : List PdfImage) : List Block :=
  (List.range imgs.length).map fun j => Block.picture (PicName.pdf (i + 1) (j + 1)) 4

/-- The page loop of `pdf_to_docx`: heading, one paragraph per text line,
    the page's images, then a page break; `i` is the 0-based page index. -/
def pdfLoop : List PdfPage → Nat → List Block
  | [], _ => []
  | p :: rest, i =>
    Block.heading ("Page " ++ toString (i + 1)) 1 ::
      ((pySplitNl p.text).map (fun line => Block.para none [plainRun line]) ++
        (pdfPageImageBlocks i p.images ++ Block.pageBreak :: pdfLoop rest (i + 1)))

/-- `pdf_to_docx`: the block sequence of the produced document. -/
def pdfToDocx (pages : List PdfPage) : List Block :=
  pdfLoop pages 0

/-- The per-page segments as the spec describes them: heading, text-line
    paragraphs, image blocks, one page break. -/
def pdfSegments : List PdfPage → Nat → List (List Block)
  | [], _ => []
  | p :: rest, i =>
    (Block.heading ("Page " ++ toString (i + 1)) 1 ::
        (pySplitNl p.text).map (fun line => Block.para none [plainRun line]) ++
        pdfPageImageBlocks i p.images ++ [Block.pageBreak]) ::
      pdfSegments rest (i + 1)

/-- Is the block a page break? -/
def isBreak : Block → Bool
  | .pageBreak => true
  | _ => false

/-- Is the block a heading? -/
def isHead : Block → Bool
  | .heading _ _ => true
  | _ => false

/-- Number of page-break blocks. -/
def breakCount (bs : List Block) : Nat :=
  bs.countP isBreak

/-- Number of heading blocks. -/
def headCount (bs : List Block) : Nat :=
  bs.countP isHead

/-- The filenames of the pictures embedded in a block sequence, in order:
    every picture block records the name of the image file it embeds. -/
def picNames (bs : List Block) : List PicName :=
  bs.filterMap fun b => match b with
    | .picture nm _ => some nm
    | _ => none

/-- The numeric component that makes a filename unique within its
    pipeline: the running image counter for PPTX names, the in-page index
    for PDF names. -/
def cntOfName : PicName → Nat
  | .pptx _ c _ => c
  | .pdf _ j => j

/-- The style of a paragraph block (`none` for any other block). -/
def blockStyle : Block → Option String
  | .para st _ => st
  | _ => none

mutual

/-- Simultaneous induction over shapes and shape lists (the constructor of
    `Shape` nests `List Shape`). -/
def shapeInduction (P : Shape → Prop) (Q : List Shape → Prop)
    (hmk : ∀ vis st hs ch htf tf img ht tRows tCols nm,
      Q ch → P (Shape.mk vis st hs ch htf tf img ht tRows tCols nm))
    (hnil : Q [])
    (hcons : ∀ s l, P s → Q l → Q (s :: l)) : ∀ s : Shape, P s
  | Shape.mk vis st hs ch htf tf img ht tRows tCols nm =>
    hmk vis st hs ch htf tf img ht tRows tCols nm
      (shapeListInduction P Q hmk hnil hcons ch)

def shapeListInduction (P : Shape → Prop) (Q : List Shape → Prop)
    (hmk : ∀ vis st hs ch htf tf img ht tRows tCols nm,
      Q ch → P (Shape.mk vis st hs ch htf tf img ht tRows tCols nm))
    (hnil : Q [])
    (hcons : ∀ s l, P s → Q l → Q (s :: l)) : ∀ l : List Shape, Q l
  | [] => hnil
  | s :: l => hcons s l (shapeInduction P Q hmk hnil hcons s)
      (shapeListInduction P Q hmk hnil hcons l)

end

/-- Counter discipline of a list of picture filenames produced while the
    image counter ran from `c` to `c'`: every name's distinguishing number
    lies in `[c, c')` and the numbers strictly increase left to right. -/
def NameInv (ns : List PicName) (c c' : Nat) : Prop :=
  c ≤ c' ∧ (∀ nm ∈ ns, c ≤ cntOfName nm ∧ cntOfName nm < c') ∧
    ns.Pairwise fun a b => cntOfName a < cntOfName b

/-- Invariant of the blocks a single `process_shape` call appends while the
    counter runs from `c` to `c'`: no page break, no heading, and picture
    names obey the counter discipline. -/
def DocInv (bs : List Block) (c c' : Nat) : Prop :=
  breakCount bs = 0 ∧ headCount bs = 0 ∧ NameInv (picNames bs) c c'

theorem nameInv_nil (c : Nat) : NameInv [] c c := by
  refine ⟨le_refl c, ?_, ?_⟩ <;> simp

theorem nameInv_append {ns ms : List PicName} {c c' c'' : Nat}
    (h1 : NameInv ns c c') (h2 : NameInv ms c' c'') :
    NameInv (ns ++ ms) c c'' := by
  obtain ⟨hle1, hb1, hp1⟩ := h1
  obtain ⟨hle2, hb2, hp2⟩ := h2
  refine ⟨le_trans hle1 hle2, ?_, ?_⟩
  · intro nm hnm
    rcases List.mem_append.mp hnm with h | h
    · exact ⟨(hb1 nm h).1, lt_of_lt_of_le (hb1 nm h).2 hle2⟩
    · exact ⟨le_trans hle1 (hb2 nm h).1, (hb2 nm h).2⟩
  · refine List.pairwise_append.mpr ⟨hp1, hp2, ?_⟩
    intro a ha b hb
    exact lt_of_lt_of_le (hb1 a ha).2 (hb2 b hb).1

theorem nameInv_mono {ns : List PicName} {c c' d' : Nat}
    (h : NameInv ns c c') (hle : c' ≤ d') : NameInv ns c d' := by
  obtain ⟨hle1, hb, hp⟩ := h
  exact ⟨le_trans hle1 hle, fun nm hnm => ⟨(hb nm hnm).1, lt_of_lt_of_le (hb nm hnm).2 hle⟩, hp⟩

theorem docInv_nil (c : Nat) : DocInv [] c c := by
  refine ⟨rfl, rfl, nameInv_nil c⟩

theorem picNames_append (bs bs' : List Block) :
    picNames (bs ++ bs') = picNames bs ++ picNames bs' := by
  simp [picNames]

theorem docInv_append {bs bs' : List Block} {c c' c'' : Nat}
    (h1 : DocInv bs c c') (h2 : DocInv bs' c' c'') :
    DocInv (bs ++ bs') c c'' := by
  obtain ⟨hbr1, hhd1, hn1⟩ := h1
  obtain ⟨hbr2, hhd2, hn2⟩ := h2
  refine ⟨?_, ?_, ?_⟩
  · have h : breakCount (bs ++ bs') = breakCount bs + breakCount bs' := by
      simp [breakCount, List.countP_append]
    rw [h, hbr1, hbr2]
  · have h : headCount (bs ++ bs') = headCount bs + headCount bs' := by
      simp [headCount, List.countP_append]
    rw [h, hhd1, hhd2]
  · rw [picNames_append]
    exact nameInv_append hn1 hn2

/-- `add_text_to_docx` appends only paragraph blocks: no page breaks, no
    headings, no pictures. -/
theorem addText_counts (content : List ParaData) :
    breakCount (addTextToDocx content) = 0 ∧ headCount (addTextToDocx content) = 0 ∧
      picNames (addTextToDocx content) = [] := by
  induction content with
  | nil => refine ⟨rfl, rfl, rfl⟩
  | cons p t ih =>
    refine ⟨?_, ?_, ?_⟩
    · simpa [addTextToDocx, breakCount, List.countP_cons, isBreak] using ih.1
    · simpa [addTextToDocx, headCount, List.countP_cons, isHead] using ih.2.1
    · simpa [addTextToDocx, picNames] using ih.2.2

theorem docInv_addText (content : List ParaData) (c : Nat) :
    DocInv (addTextToDocx content) c c := by
  obtain ⟨h1, h2, h3⟩ := addText_counts content
  exact ⟨h1, h2, h3 ▸ nameInv_nil c⟩

/-- A lone paragraph or table block satisfies the invariant with an
    unchanged counter. -/
theorem docInv_para (st : Option String) (runs : List RunRec) (c : Nat) :
    DocInv [Block.para st runs] c c := by
  refine ⟨rfl, rfl, ?_⟩
  simpa [picNames] using nameInv_nil c

theorem docInv_table (r co : Nat) (cells : List (List String)) (sty : String) (c : Nat) :
    DocInv [Block.table r co cells sty] c c := by
  refine ⟨rfl, rfl, ?_⟩
  simpa [picNames] using nameInv_nil c

theorem docInv_picture (slide c : Nat) (ext : String) (w : ℚ) :
    DocInv [Block.picture (PicName.pptx slide c ext) w] c (c + 1) := by
  refine ⟨rfl, rfl, ?_, ?_, ?_⟩
  · exact Nat.le_succ c
  · intro nm hnm
    simp [picNames] at hnm
    simp [hnm, cntOfName]
  · simp [picNames]

/-- Step case of the master invariant: one shape, assuming it for the
    shape's children. -/
theorem docInv_step (vis : Option Bool) (st : Nat) (hs : Bool) (ch : List Shape)
    (htf : Bool) (tf : List Para) (img : Option ImgData) (ht : Bool)
    (tRows : List (List String)) (tCols : Nat) (nm : String)
    (ih : ∀ n c, DocInv (processShapes ch n c).1 c (processShapes ch n c).2)
    (n c : Nat) :
    DocInv (processShape (Shape.mk vis st hs ch htf tf img ht tRows tCols nm) n c).1 c
      (processShape (Shape.mk vis st hs ch htf tf img ht tRows tCols nm) n c).2 := by
  rw [processShape]
  split
  · exact docInv_nil c
  · split
    · exact ih n c
    · split
      · exact docInv_addText _ c
      · rename_i hpic
        split
        · exact docInv_picture n c _ _
        · split
          · exact docInv_table _ _ _ _ c
          · split
            · exact docInv_para _ _ c
            · split
              · exact docInv_para _ _ c
              · exact docInv_nil c

/-- Master invariant, list form: `processShapes` threads the counter
    monotonically, appends no page break or heading, and stamps picture
    filenames with strictly increasing counter values in `[c, c')`. -/
theorem processShapes_docInv (l : List Shape) :
    ∀ n c, DocInv (processShapes l n c).1 c (processShapes l n c).2 := by
  refine shapeListInduction
    (fun s => ∀ n c, DocInv (processShape s n c).1 c (processShape s n c).2)
    (fun l => ∀ n c, DocInv (processShapes l n c).1 c (processShapes l n c).2)
    docInv_step ?_ ?_ l
  · intro n c
    simpa [processShapes] using docInv_nil c
  · intro s l hs hl n c
    have h : processShapes (s :: l) n c =
        ((processShape s n c).1 ++ (processShapes l n (processShape s n c).2).1,
          (processShapes l n (processShape s n c).2).2) := by
      simp [processShapes]
    rw [h]
    exact docInv_append (hs n c) (hl n (processShape s n c).2)

@[simp]
theorem picNames_nil : picNames [] = [] := rfl

@[simp]
theorem picNames_cons_heading (t : String) (lv : Nat) (bs : List Block) :
    picNames (Block.heading t lv :: bs) = picNames bs := by
  simp [picNames]

@[simp]
theorem picNames_cons_para (st : Option String) (rs : List RunRec) (bs : List Block) :
    picNames (Block.para st rs :: bs) = picNames bs := by
  simp [picNames]

@[simp]
theorem picNames_cons_table (r co : Nat) (cells : List (List String)) (sty : String)
    (bs : List Block) :
    picNames (Block.table r co cells sty :: bs) = picNames bs := by
  simp [picNames]

@[simp]
theorem picNames_cons_break (bs : List Block) :
    picNames (Block.pageBreak :: bs) = picNames bs := by
  simp [picNames]

@[simp]
theorem picNames_cons_pic (nm : PicName) (w : ℚ) (bs : List Block) :
    picNames (Block.picture nm w :: bs) = nm :: picNames bs := by
  simp [picNames]

@[simp]
theorem breakCount_nil : breakCount [] = 0 := rfl

@[simp]
theorem breakCount_cons (b : Block) (bs : List Block) :
    breakCount (b :: bs) = breakCount bs + (if isBreak b then 1 else 0) := by
  simp [breakCount, List.countP_cons]

@[simp]
theorem breakCount_append (bs bs' : List Block) :
    breakCount (bs ++ bs') = breakCount bs + breakCount bs' := by
  simp [breakCount, List.countP_append]

@[simp]
theorem headCount_nil : headCount [] = 0 := rfl

@[simp]
theorem headCount_cons (b : Block) (bs : List Block) :
    headCount (b :: bs) = headCount bs + (if isHead b then 1 else 0) := by
  simp [headCount, List.countP_cons]

@[simp]
theorem headCount_append (bs bs' : List Block) :
    headCount (bs ++ bs') = headCount bs + headCount bs' := by
  simp [headCount, List.countP_append]

/-- Master invariant, single-shape form. -/
theorem processShape_docInv (s : Shape) :
    ∀ n c, DocInv (processShape s n c).1 c (processShape s n c).2 := by
  refine shapeInduction
    (fun s => ∀ n c, DocInv (processShape s n c).1 c (processShape s n c).2)
    (fun l => ∀ n c, DocInv (processShapes l n c).1 c (processShapes l n c).2)
    docInv_step ?_ ?_ s
  · intro n c
    simpa [processShapes] using docInv_nil c
  · intro s l hs hl n c
    have h : processShapes (s :: l) n c =
        ((processShape s n c).1 ++ (processShapes l n (processShape s n c).2).1,
          (processShapes l n (processShape s n c).2).2) := by
      simp [processShapes]
    rw [h]
    exact docInv_append (hs n c) (hl n (processShape s n c).2)

/-- Counter discipline of the picture names of the whole PPTX slide loop. -/
theorem pptxLoop_nameInv : ∀ (slides : List (List Shape)) (i c : Nat),
    NameInv (picNames (pptxLoop slides i c).1) c (pptxLoop slides i c).2 := by
  intro slides
  induction slides with
  | nil =>
    intro i c
    simpa [pptxLoop] using nameInv_nil c
  | cons shapes rest ih =>
    intro i c
    have hname : picNames (pptxLoop (shapes :: rest) i c).1
        = picNames (processShapes shapes (i + 1) c).1 ++
          picNames (pptxLoop rest (i + 1) (processShapes shapes (i + 1) c).2).1 := by
      simp [pptxLoop, picNames_append]
    have hcnt : (pptxLoop (shapes :: rest) i c).2
        = (pptxLoop rest (i + 1) (processShapes shapes (i + 1) c).2).2 := by
      simp [pptxLoop]
    rw [hname, hcnt]
    exact nameInv_append (processShapes_docInv shapes (i + 1) c).2.2
      (ih (i + 1) (processShapes shapes (i + 1) c).2)

/-- Strictly increasing counter stamps give pairwise-distinct names. -/
theorem nameInv_nodup {ns : List PicName} {c c' : Nat} (h : NameInv ns c c') :
    ns.Nodup := by
  refine h.2.2.imp ?_
  intro a b hlt heq
  rw [heq] at hlt
  exact lt_irrefl _ hlt

/-- Text-line paragraphs embed no pictures. -/
theorem picNames_paraMap (ls : List String) :
    picNames (ls.map fun line => Block.para none [plainRun line]) = [] := by
  induction ls with
  | nil => rfl
  | cons l t ih => simpa using ih

/-- The picture names a PDF page contributes. -/
theorem picNames_pdfImageBlocks (i : Nat) (imgs : List PdfImage) :
    picNames (pdfPageImageBlocks i imgs)
      = (List.range imgs.length).map fun j => PicName.pdf (i + 1) (j + 1) := by
  rw [pdfPageImageBlocks]
  induction (List.range imgs.length) with
  | nil => rfl
  | cons a t ih => simpa using ih

/-- Every picture name the PDF loop emits from page index `i` on carries a
    1-based page number of at least `i + 1`. -/
theorem pdfLoop_names_mem : ∀ (pages : List PdfPage) (i : Nat) (nm : PicName),
    nm ∈ picNames (pdfLoop pages i) → ∃ p j, nm = PicName.pdf p j ∧ i + 1 ≤ p := by
  intro pages
  induction pages with
  | nil =>
    intro i nm h
    simp [pdfLoop] at h
  | cons p rest ih =>
    intro i nm h
    rw [pdfLoop] at h
    simp only [picNames_cons_heading, picNames_append, picNames_paraMap,
      picNames_cons_break, List.nil_append, List.mem_append] at h
    rcases h with h | h
    · rw [picNames_pdfImageBlocks] at h
      simp only [List.mem_map, List.mem_range] at h
      obtain ⟨j, _, hj⟩ := h
      exact ⟨i + 1, j + 1, hj.symm, le_refl _⟩
    · obtain ⟨q, j, hq, hle⟩ := ih (i + 1) nm h
      exact ⟨q, j, hq, le_trans (Nat.le_succ _) hle⟩

/-- The PDF loop never repeats a picture filename. -/
theorem pdfLoop_names_nodup : ∀ (pages : List PdfPage) (i : Nat),
    (picNames (pdfLoop pages i)).Nodup := by
  intro pages
  induction pages with
  | nil =>
    intro i
    simp [pdfLoop]
  | cons p rest ih =>
    intro i
    rw [pdfLoop]
    simp only [picNames_cons_heading, picNames_append, picNames_paraMap,
      picNames_cons_break, List.nil_append]
    rw [List.nodup_append]
    refine ⟨?_, ih (i + 1), ?_⟩
    · rw [picNames_pdfImageBlocks]
      refine List.Nodup.map ?_ (List.nodup_range _)
      intro a b hab
      simpa using hab
    · intro nm hnm hnm'
      rw [picNames_pdfImageBlocks] at hnm
      simp only [List.mem_map, List.mem_range] at hnm
      obtain ⟨j, _, hj⟩ := hnm
      obtain ⟨q, k, hq, hle⟩ := pdfLoop_names_mem rest (i + 1) nm hnm'
      rw [← hj] at hq
      have h2 : i + 1 = q ∧ j + 1 = k := by simpa using hq
      omega

theorem breakCount_paraMap (ls : List String) :
    breakCount (ls.map fun line => Block.para none [plainRun line]) = 0 := by
  induction ls with
  | nil => rfl
  | cons l t ih => simpa [isBreak] using ih

theorem headCount_paraMap (ls : List String) :
    headCount (ls.map fun line => Block.para none [plainRun line]) = 0 := by
  induction ls with
  | nil => rfl
  | cons l t ih => simpa [isHead] using ih

theorem breakCount_pdfImageBlocks (i : Nat) (imgs : List PdfImage) :
    breakCount (pdfPageImageBlocks i imgs) = 0 := by
  rw [pdfPageImageBlocks]
  induction (List.range imgs.length) with
  | nil => rfl
  | cons a t ih => simpa [isBreak] using ih

theorem headCount_pdfImageBlocks (i : Nat) (imgs : List PdfImage) :
    headCount (pdfPageImageBlocks i imgs) = 0 := by
  rw [pdfPageImageBlocks]
  induction (List.range imgs.length) with
  | nil => rfl
  | cons a t ih => simpa [isHead] using ih

/-- The PPTX loop's output is exactly the concatenation of its per-slide
    segments. -/
theorem pptxLoop_eq_segments : ∀ (slides : List (List Shape)) (i c : Nat),
    (pptxLoop slides i c).1 = (pptxSegments slides i c).flatten := by
  intro slides
  induction slides with
  | nil => intro i c; rfl
  | cons shapes rest ih =>
    intro i c
    simp [pptxLoop, pptxSegments, ih (i + 1)]

theorem pptxSegments_length : ∀ (slides : List (List Shape)) (i c : Nat),
    (pptxSegments slides i c).length = slides.length := by
  intro slides
  induction slides with
  | nil => intro i c; rfl
  | cons shapes rest ih => intro i c; simp [pptxSegments, ih (i + 1)]

/-- One page break per slide. -/
theorem pptxLoop_breakCount : ∀ (slides : List (List Shape)) (i c : Nat),
    breakCount (pptxLoop slides i c).1 = slides.length := by
  intro slides
  induction slides with
  | nil => intro i c; rfl
  | cons shapes rest ih =>
    intro i c
    simp [pptxLoop, isBreak, isHead, (processShapes_docInv shapes (i + 1) c).1,
      ih (i + 1)]

/-- Each PPTX segment contains exactly one page break and one heading. -/
theorem pptxSegments_each : ∀ (slides : List (List Shape)) (i c : Nat),
    ∀ seg ∈ pptxSegments slides i c, breakCount seg = 1 ∧ headCount seg = 1 := by
  intro slides
  induction slides with
  | nil => intro i c seg h; simp [pptxSegments] at h
  | cons shapes rest ih =>
    intro i c seg h
    rw [pptxSegments] at h
    simp only [List.mem_cons] at h
    rcases h with h | h
    · subst h
      constructor
      · simp [isBreak, (processShapes_docInv shapes (i + 1) c).1]
      · simp [isHead, (processShapes_docInv shapes (i + 1) c).2.1]
    · exact ih (i + 1) (processShapes shapes (i + 1) c).2 seg h

/-- The PDF loop's output is exactly the concatenation of its per-page
    segments. -/
theorem pdfLoop_eq_segments : ∀ (pages : List PdfPage) (i : Nat),
    pdfLoop pages i = (pdfSegments pages i).flatten := by
  intro pages
  induction pages with
  | nil => intro i; rfl
  | cons p rest ih =>
    intro i
    simp [pdfLoop, pdfSegments, ih (i + 1)]

theorem pdfSegments_length : ∀ (pages : List PdfPage) (i : Nat),
    (pdfSegments pages i).length = pages.length := by
  intro pages
  induction pages with
  | nil => intro i; rfl
  | cons p rest ih => intro i; simp [pdfSegments, ih (i + 1)]

/-- One page break per page. -/
theorem pdfLoop_breakCount : ∀ (pages : List PdfPage) (i : Nat),
    breakCount (pdfLoop pages i) = pages.length := by
  intro pages
  induction pages with
  | nil => intro i; rfl
  | cons p rest ih =>
    intro i
    simp [pdfLoop, isBreak, isHead, breakCount_paraMap, breakCount_pdfImageBlocks,
      ih (i + 1)]

/-- Each PDF segment contains exactly one page break and one heading. -/
theorem pdfSegments_each : ∀ (pages : List PdfPage) (i : Nat),
    ∀ seg ∈ pdfSegments pages i, breakCount seg = 1 ∧ headCount seg = 1 := by
  intro pages
  induction pages with
  | nil => intro i seg h; simp [pdfSegments] at h
  | cons p rest ih =>
    intro i seg h
    rw [pdfSegments] at h
    simp only [List.mem_cons] at h
    rcases h with h | h
    · subst h
      constructor
      · simp [isBreak, breakCount_paraMap, breakCount_pdfImageBlocks]
      · simp [isHead, headCount_paraMap, headCount_pdfImageBlocks]
    · exact ih (i + 1) seg h

/-- C8: a shape whose explicit visibility flag is `false` is skipped
    entirely: `process_shape` appends no blocks (hence none for any
    descendant either) and returns the image counter unchanged. -/
theorem c8_invisible_skipped (s : Shape) (n cnt : Nat) (h : s.visible = some false) :
    processShape s n cnt = ([], cnt) := by
  cases s with
  | mk vis st hs ch htf tf img ht tRows tCols nm =>
    simp only [Shape.visible] at h
    subst h
    simp [processShape, pySkipInvisible]

/-- Witness for C8: an invisible picture-bearing group with a child is
    processed to no blocks and an unchanged counter. -/
theorem c8_invisible_skipped_witness :
    processShape
      (Shape.mk (some false) 6 true
        [Shape.mk none 13 false [] false []
          (some (ImgData.mk ("png") (some 100))) false [] 0 ("Picture 3")]
        false [] none false [] 0 ("Group 9")) 2 7 = ([], 7) :=
  c8_invisible_skipped _ 2 7 (by decide)

/-- C10: a visible shape that matches none of the branches of
    `process_shape` (no text frame, not a picture with image data, no
    table, not a chart by type-and-name, no "SmartArt" in its name, not a
    group) contributes nothing and leaves the counter unchanged. -/
theorem c10_unhandled_dropped (vis : Option Bool) (st : Nat) (hs : Bool)
    (ch : List Shape) (tf : List Para) (img : Option ImgData)
    (tRows : List (List String)) (tCols : Nat) (nm : String) (n cnt : Nat)
    (hvis : pySkipInvisible vis = false)
    (hgrp : ¬(st = 6 ∧ hs = true))
    (hpic : ¬(st = 13 ∧ img.isSome = true))
    (hcht : ¬(st = 3 ∧ strContains nm ("Chart") = true))
    (hsa : strContains nm ("SmartArt") = false) :
    processShape (Shape.mk vis st hs ch false tf img false tRows tCols nm) n cnt
      = ([], cnt) := by
  simp only [processShape]
  rw [if_neg (by simp [hvis]), if_neg hgrp, if_neg (by simp), dif_neg hpic,
    if_neg (by simp), if_neg hcht, if_neg (by simp [hsa])]

/-- Witness for C10: a visible freeform with no content is dropped. -/
theorem c10_unhandled_dropped_witness :
    processShape (Shape.mk none 9 false [] false [] none false [] 0 ("Oval 7")) 3 4
      = ([], 4) :=
  c10_unhandled_dropped none 9 false [] [] none [] 0 ("Oval 7") 3 4
    (by decide) (by decide) (by decide) (by decide) (by decide)

/-- C4 (amended): a group shape (type 6 with a `shapes` attribute) whose
    visibility flag is not explicitly false is processed exactly as its
    children would be at slide level, in source order, with the same
    resulting image counter; the group itself contributes nothing. -/
theorem c4_group_flattening (vis : Option Bool) (ch : List Shape) (htf : Bool)
    (tf : List Para) (img : Option ImgData) (ht : Bool)
    (tRows : List (List String)) (tCols : Nat) (nm : String) (n cnt : Nat)
    (hvis : pySkipInvisible vis = false) :
    processShape (Shape.mk vis 6 true ch htf tf img ht tRows tCols nm) n cnt
      = processShapes ch n cnt := by
  simp only [processShape]
  rw [if_neg (by simp [hvis]), if_pos (by simp)]

/-- Witness for C4: a visible group with a text leaf and a picture leaf
    processes exactly as the two leaves at slide level. -/
theorem c4_group_flattening_witness :
    processShape
      (Shape.mk none 6 true
        [Shape.mk none 1 false []
          true [Para.mk 0 [RunData.mk ("hi") none none none none none ColorInfo.absent]]
          none false [] 0 ("TextBox 1"),
        Shape.mk none 13 false [] false []
          (some (ImgData.mk ("png") (some 192))) false [] 0 ("Picture 2")]
        false [] none false [] 0 ("Group 1")) 1 0
      = processShapes
        [Shape.mk none 1 false []
          true [Para.mk 0 [RunData.mk ("hi") none none none none none ColorInfo.absent]]
          none false [] 0 ("TextBox 1"),
        Shape.mk none 13 false [] false []
          (some (ImgData.mk ("png") (some 192))) false [] 0 ("Picture 2")] 1 0 :=
  c4_group_flattening none _ false [] none false [] 0 ("Group 1") 1 0 (by decide)

/-- Counterexample to C4 as stated: an explicitly invisible group is
    skipped whole, while processing its leaf directly as a slide child
    emits the leaf's paragraph — so "for every group shape" fails without
    a visibility proviso. -/
theorem c4_invisible_group_counterexample :
    processShape
      (Shape.mk (some false) 6 true
        [Shape.mk none 1 false []
          true [Para.mk 0 [RunData.mk ("hi") none none none none none ColorInfo.absent]]
          none false [] 0 ("TextBox 1")]
        false [] none false [] 0 ("Group 1")) 1 0
      ≠ processShapes
        [Shape.mk none 1 false []
          true [Para.mk 0 [RunData.mk ("hi") none none none none none ColorInfo.absent]]
          none false [] 0 ("TextBox 1")] 1 0 := by
  decide

/-- C6: a visible picture shape (type 13 with image data, no text frame)
    is embedded at width `min 5 (pixelWidth / 96)` inches when the saved
    image can be reopened and measured, and at the 3-inch default when
    reopening or measuring fails; either way one picture block is emitted
    and the counter advances by one — the failure is not propagated. -/
theorem c6_picture_width (vis : Option Bool) (hs : Bool) (ch : List Shape)
    (tf : List Para) (im : ImgData) (ht : Bool) (tRows : List (List String))
    (tCols : Nat) (nm : String) (n cnt : Nat)
    (hvis : pySkipInvisible vis = false) :
    (∀ w, im.pixelWidth = some w →
      processShape (Shape.mk vis 13 hs ch false tf (some im) ht tRows tCols nm) n cnt
        = ([Block.picture (PicName.pptx n cnt im.ext) (min 5 ((w : ℚ) / 96))], cnt + 1)) ∧
    (im.pixelWidth = none →
      processShape (Shape.mk vis 13 hs ch false tf (some im) ht tRows tCols nm) n cnt
        = ([Block.picture (PicName.pptx n cnt im.ext) 3], cnt + 1)) := by
  constructor
  · intro w hw
    simp only [processShape]
    rw [if_neg (by simp [hvis]), if_neg (by simp), if_neg (by simp),
      dif_pos (by simp)]
    simp [picWidth, hw]
  · intro hw
    simp only [processShape]
    rw [if_neg (by simp [hvis]), if_neg (by simp), if_neg (by simp),
      dif_pos (by simp)]
    simp [picWidth, hw]

/-- Witness for C6: a 960-pixel-wide image is capped at 5 inches; an
    unmeasurable image falls back to 3 inches, both advancing the counter. -/
theorem c6_picture_width_witness :
    processShape
        (Shape.mk none 13 false [] false []
          (some (ImgData.mk ("png") (some 960))) false [] 0 ("Picture 1")) 1 0
      = ([Block.picture (PicName.pptx 1 0 ("png")) 5], 1) ∧
    processShape
        (Shape.mk none 13 false [] false []
          (some (ImgData.mk ("jpeg") none)) false [] 0 ("Picture 2")) 1 0
      = ([Block.picture (PicName.pptx 1 0 ("jpeg")) 3], 1) := by
  constructor
  · have h := (c6_picture_width none false [] [] (ImgData.mk ("png") (some 960))
      false [] 0 ("Picture 1") 1 0 (by decide)).1 960 rfl
    rw [h]
    norm_num
  · exact (c6_picture_width none false [] [] (ImgData.mk ("jpeg") none)
      false [] 0 ("Picture 2") 1 0 (by decide)).2 rfl

/-- C1 (amended): a visible, non-group shape whose name contains
    "SmartArt" and that has no text frame, no image data, no table and is
    not a chart emits exactly the fixed placeholder paragraph; the
    follow-up "emit its text content" branch is unreachable, because a
    shape that does carry a text frame is consumed by the text-frame
    branch earlier in the chain and gets no placeholder. -/
theorem c1_smartart_placeholder (vis : Option Bool) (st : Nat) (hs : Bool)
    (ch : List Shape) (tf : List Para) (img : Option ImgData)
    (tRows : List (List String)) (tCols : Nat) (nm : String) (n cnt : Nat)
    (hvis : pySkipInvisible vis = false)
    (hgrp : ¬(st = 6 ∧ hs = true))
    (hpic : ¬(st = 13 ∧ img.isSome = true))
    (hcht : ¬(st = 3 ∧ strContains nm ("Chart") = true))
    (hsa : strContains nm ("SmartArt") = true) :
    processShape (Shape.mk vis st hs ch false tf img false tRows tCols nm) n cnt
      = ([Block.para none [plainRun ("[SmartArt Placeholder]")]], cnt) := by
  simp only [processShape]
  rw [if_neg (by simp [hvis]), if_neg hgrp, if_neg (by simp), dif_neg hpic,
    if_neg (by simp), if_neg hcht, if_pos hsa]
  simp

/-- Witness for C1: a visible text-frame-less SmartArt shape yields the
    placeholder paragraph alone. -/
theorem c1_smartart_placeholder_witness :
    processShape
        (Shape.mk none 1 false [] false [] none false [] 0 ("SmartArt 2")) 1 0
      = ([Block.para none [plainRun ("[SmartArt Placeholder]")]], 0) :=
  c1_smartart_placeholder none 1 false [] [] none [] 0 ("SmartArt 2") 1 0
    (by decide) (by decide) (by decide) (by decide) (by decide)

/-- Counterexample to C1 as stated: a visible, non-group shape named
    "SmartArt 5" that carries a (here empty) text frame — and is not
    handled as a picture, table or chart — emits no placeholder at all:
    the text-frame branch fires first and the SmartArt branch is never
    reached. -/
theorem c1_smartart_text_counterexample :
    strContains
        (Shape.name (Shape.mk none 1 false [] true [] none false [] 0 ("SmartArt 5")))
        ("SmartArt") = true ∧
    Shape.hasTextFrame (Shape.mk none 1 false [] true [] none false [] 0 ("SmartArt 5"))
      = true ∧
    (processShape (Shape.mk none 1 false [] true [] none false [] 0 ("SmartArt 5")) 1 0).1
      = [] ∧
    Block.para none [plainRun ("[SmartArt Placeholder]")] ∉
      (processShape (Shape.mk none 1 false [] true [] none false [] 0 ("SmartArt 5")) 1 0).1 := by
  refine ⟨by decide, by decide, by decide, by decide⟩

/-- C2 (amended): in the PDF pipeline an embedded image is converted to
    plain RGB before saving exactly when its pixmap has at least 5
    components (`pix.n >= 5`); any image with fewer components — alpha or
    not — is saved as-is. -/
theorem c2_pdf_rgb_conversion (img : PdfImage) :
    ((savePdfImage img).2 = true ↔ 5 ≤ img.n) ∧
    (img.n < 5 → savePdfImage img = (img, false)) := by
  constructor
  · rw [savePdfImage]
    split
    · rename_i h
      simp
      omega
    · rename_i h
      simp
      omega
  · intro h
    rw [savePdfImage, if_pos h]

/-- Witness for C2: a 3-component RGB pixmap is saved unchanged, a
    5-component CMYK-plus-alpha pixmap goes through the conversion branch. -/
theorem c2_pdf_rgb_conversion_witness :
    savePdfImage (PdfImage.mk 3 false) = (PdfImage.mk 3 false, false) ∧
    (savePdfImage (PdfImage.mk 5 true)).2 = true :=
  ⟨(c2_pdf_rgb_conversion (PdfImage.mk 3 false)).2 (by decide),
    (c2_pdf_rgb_conversion (PdfImage.mk 5 true)).1.mpr (by decide)⟩

/-- Counterexample to C2 as stated: an RGB-plus-alpha pixmap (`pix.n = 4`,
    alpha present) has an alpha channel, so the claim demands conversion to
    plain RGB before saving; the code tests only `pix.n < 5` and saves it
    as-is, through the unconverted branch. -/
theorem c2_alpha_counterexample :
    (PdfImage.mk 4 true).alpha = true ∧
    savePdfImage (PdfImage.mk 4 true) = (PdfImage.mk 4 true, false) := by
  refine ⟨rfl, by decide⟩

/-- C7: malformed or missing run colour data yields an absent colour
    attribute (`None`) rather than an error, and extraction still returns
    every paragraph with every run. -/
theorem c7_color_malformed :
    extractRunColor ColorInfo.noRgbAttr = none ∧
    extractRunColor ColorInfo.raisesOnAccess = none ∧
    extractRunColor ColorInfo.rgbNone = none ∧
    (∀ r g b : Nat, ¬(r ≤ 255 ∧ g ≤ 255 ∧ b ≤ 255) →
      extractRunColor (ColorInfo.rgbVal r g b) = none) ∧
    (∀ s : Shape, s.hasTextFrame = true →
      (extractTextRuns s).map (fun pd => pd.runs.length)
        = s.textFrame.map fun p => p.runs.length) := by
  refine ⟨rfl, rfl, rfl, ?_, ?_⟩
  · intro r g b h
    rw [extractRunColor, if_neg h]
  · intro s hs
    simp [extractTextRuns, hs, extractParaData]

/-- Witness for C7: an out-of-range RGB triple collapses to `None`, and a
    shape with one malformed-colour run still extracts its full run list. -/
theorem c7_color_malformed_witness :
    extractRunColor (ColorInfo.rgbVal 300 0 0) = none ∧
    (extractTextRuns
        (Shape.mk none 1 false []
          true [Para.mk 0 [RunData.mk ("a") none none none none none ColorInfo.raisesOnAccess,
            RunData.mk ("b") none none none none none (ColorInfo.rgbVal 1 2 3)]]
          none false [] 0 ("TextBox 1"))).map (fun pd => pd.runs.length) = [2] :=
  ⟨c7_color_malformed.2.2.2.1 300 0 0 (by decide),
    by
      have h := c7_color_malformed.2.2.2.2
        (Shape.mk none 1 false []
          true [Para.mk 0 [RunData.mk ("a") none none none none none ColorInfo.raisesOnAccess,
            RunData.mk ("b") none none none none none (ColorInfo.rgbVal 1 2 3)]]
          none false [] 0 ("TextBox 1")) (by decide)
      rw [h]
      decide⟩

/-- C5 (amended): a paragraph is emitted with the bulleted-list style
    exactly when its indentation level exceeds zero or its rendered text,
    stripped of surrounding whitespace, starts with the bullet glyph "•";
    all other paragraphs get the default style. -/
theorem c5_bullet_style (s : Shape) (hs : s.hasTextFrame = true) :
    (addTextToDocx (extractTextRuns s)).length = s.textFrame.length ∧
    ∀ i (hi : i < s.textFrame.length)
      (hj : i < (addTextToDocx (extractTextRuns s)).length),
      blockStyle ((addTextToDocx (extractTextRuns s)).get ⟨i, hj⟩)
        = if 0 < (s.textFrame.get ⟨i, hi⟩).level ∨
            pyStartsWith (pyStrip (s.textFrame.get ⟨i, hi⟩).text) ("•") = true
          then some ("List Bullet") else none := by
  constructor
  · simp [addTextToDocx, extractTextRuns, hs]
  · intro i hi hj
    simp [addTextToDocx, extractTextRuns, hs, blockStyle, extractParaData,
      Bool.or_eq_true, decide_eq_true_eq]

/-- Witness for C5: a level-1 paragraph gets the bullet style, a plain
    level-0 paragraph gets the default style. -/
theorem c5_bullet_style_witness :
    blockStyle ((addTextToDocx (extractTextRuns
        (Shape.mk none 1 false []
          true [Para.mk 1 [RunData.mk ("x") none none none none none ColorInfo.absent],
            Para.mk 0 [RunData.mk ("y") none none none none none ColorInfo.absent]]
          none false [] 0 ("TextBox 1")))).get ⟨0, by decide⟩)
      = some ("List Bullet") ∧
    blockStyle ((addTextToDocx (extractTextRuns
        (Shape.mk none 1 false []
          true [Para.mk 1 [RunData.mk ("x") none none none none none ColorInfo.absent],
            Para.mk 0 [RunData.mk ("y") none none none none none ColorInfo.absent]]
          none false [] 0 ("TextBox 1")))).get ⟨1, by decide⟩)
      = none := by
  constructor
  · have h := (c5_bullet_style
      (Shape.mk none 1 false []
        true [Para.mk 1 [RunData.mk ("x") none none none none none ColorInfo.absent],
          Para.mk 0 [RunData.mk ("y") none none none none none ColorInfo.absent]]
        none false [] 0 ("TextBox 1")) (by decide)).2 0 (by decide) (by decide)
    rw [h]
    decide
  · have h := (c5_bullet_style
      (Shape.mk none 1 false []
        true [Para.mk 1 [RunData.mk ("x") none none none none none ColorInfo.absent],
          Para.mk 0 [RunData.mk ("y") none none none none none ColorInfo.absent]]
        none false [] 0 ("TextBox 1")) (by decide)).2 1 (by decide) (by decide)
    rw [h]
    decide

/-- Counterexample to C5 as stated: a level-0 paragraph whose rendered
    text is " • hi" does not start with the bullet glyph (it starts with a
    space), yet the code strips whitespace first and emits it with the
    bulleted-list style. -/
theorem c5_whitespace_counterexample :
    (Para.mk 0 [RunData.mk (" • hi") none none none none none ColorInfo.absent]).level
      = 0 ∧
    pyStartsWith
        (Para.text (Para.mk 0 [RunData.mk (" • hi") none none none none none ColorInfo.absent]))
        ("•")
      = false ∧
    (extractParaData
        (Para.mk 0 [RunData.mk (" • hi") none none none none none ColorInfo.absent])).is_bullet
      = true ∧
    (addTextToDocx [extractParaData
        (Para.mk 0 [RunData.mk (" • hi") none none none none none ColorInfo.absent])]).map blockStyle
      = [some ("List Bullet")] := by
  refine ⟨rfl, by decide, by decide, by decide⟩

/-- C3: for every input, each slide/page contributes exactly the segment
    "heading, content in traversal order, one page break"; the document is
    the concatenation of these segments, there are as many segments as
    slides/pages, and the page-break count equals the slide/page count. -/
theorem c3_block_structure (slides : List (List Shape)) (pages : List PdfPage) :
    pptxToDocx slides = (pptxSegments slides 0 0).flatten ∧
    (pptxSegments slides 0 0).length = slides.length ∧
    breakCount (pptxToDocx slides) = slides.length ∧
    (∀ seg ∈ pptxSegments slides 0 0, breakCount seg = 1 ∧ headCount seg = 1) ∧
    pdfToDocx pages = (pdfSegments pages 0).flatten ∧
    (pdfSegments pages 0).length = pages.length ∧
    breakCount (pdfToDocx pages) = pages.length ∧
    (∀ seg ∈ pdfSegments pages 0, breakCount seg = 1 ∧ headCount seg = 1) := by
  refine ⟨pptxLoop_eq_segments slides 0 0, pptxSegments_length slides 0 0,
    pptxLoop_breakCount slides 0 0, pptxSegments_each slides 0 0,
    pdfLoop_eq_segments pages 0, pdfSegments_length pages 0,
    pdfLoop_breakCount pages 0, pdfSegments_each pages 0⟩

/-- Witness for C3: a one-slide presentation and a one-page PDF each
    produce exactly one page break, and the slide's lone segment holds one
    break and one heading. -/
theorem c3_block_structure_witness :
    breakCount (pptxToDocx [[Shape.mk none 1 false []
        true [Para.mk 0 [RunData.mk ("hi") none none none none none ColorInfo.absent]]
        none false [] 0 ("TextBox 1")]]) = 1 ∧
    breakCount (pdfToDocx [PdfPage.mk ("Hello\nWorld") [PdfImage.mk 3 false]]) = 1 ∧
    breakCount [Block.heading ("Page 1") 1,
        Block.para none [plainRun ("Hello")], Block.para none [plainRun ("World")],
        Block.picture (PicName.pdf 1 1) 4, Block.pageBreak] = 1 := by
  refine ⟨?_, ?_, ?_⟩
  · exact (c3_block_structure [[Shape.mk none 1 false []
      true [Para.mk 0 [RunData.mk ("hi") none none none none none ColorInfo.absent]]
      none false [] 0 ("TextBox 1")]] []).2.2.1
  · exact (c3_block_structure [] [PdfPage.mk ("Hello\nWorld") [PdfImage.mk 3 false]]).2.2.2.2.2.2.1
  · exact ((c3_block_structure [] [PdfPage.mk ("Hello\nWorld") [PdfImage.mk 3 false]]).2.2.2.2.2.2.2
      [Block.heading ("Page 1") 1,
        Block.para none [plainRun ("Hello")], Block.para none [plainRun ("World")],
        Block.picture (PicName.pdf 1 1) 4, Block.pageBreak] (by decide)).1

/-- C9: within one conversion run no extracted-image filename repeats: the
    PPTX pipeline's filenames carry a strictly increasing per-document
    image counter, and the PDF pipeline's carry unique (page, in-page
    index) pairs. -/
theorem c9_unique_filenames (slides : List (List Shape)) (pages : List PdfPage) :
    (picNames (pptxToDocx slides)).Nodup ∧ (picNames (pdfToDocx pages)).Nodup :=
  ⟨nameInv_nodup (pptxLoop_nameInv slides 0 0), pdfLoop_names_nodup pages 0⟩

end ToDocx
